import Mathlib

/-!
# Logging sink identifiers (`google/logging_utils.go`)

A shallow embedding of the sink-id parser and formatter.  Go strings are
modelled by Lean strings; splitting on the ASCII byte `/` agrees with splitting
on the character `/`.  A Go run-time panic (slice index out of range) is a
separate outcome, distinct from a returned `error` value.
-/

namespace Google

/-- The list `loggingSinkResourceTypes`: every Stackdriver Logging resource type. -/
def loggingSinkResourceTypes : List String :=
  ["billingAccount", "folders", "organizations", "projects"]

/-- The struct `LoggingSinkId`. -/
structure LoggingSinkId where
  resourceType : String
  resourceId : String
  name : String
  deriving DecidableEq

/-- The method `canonicalId`: `fmt.Sprintf("%s/%s/sinks/%s", ...)`. -/
def LoggingSinkId.canonicalId (l : LoggingSinkId) : String :=
  l.resourceType ++ "/" ++ l.resourceId ++ "/sinks/" ++ l.name

/-- The method `parent`: `fmt.Sprintf("%s/%s", ...)`. -/
def LoggingSinkId.parent (l : LoggingSinkId) : String :=
  l.resourceType ++ "/" ++ l.resourceId

/-- Splitting a character list at every `/`; an input with `k` slashes gives
`k + 1` pieces, so the empty input gives one empty piece. -/
def splitChars : List Char → List (List Char)
  | [] => [[]]
  | c :: cs =>
    if c = '/' then [] :: splitChars cs
    else
      match splitChars cs with
      | [] => [[c]]
      | p :: ps => (c :: p) :: ps

/-- Go `strings.Split(s, "/")`. -/
def strings.Split (s : String) : List String :=
  (splitChars s.data).map String.mk

/-- Go slice indexing `xs[i]` with a signed index: `none` is the run-time
panic "index out of range". -/
def index (xs : List String) (i : Int) : Option String :=
  if i < 0 then none else xs[i.toNat]?

/-- The three `fmt.Errorf` call sites of `parseLoggingSinkId`, each with the
arguments given to its format string. -/
inductive ParseError where
  /-- The call `fmt.Errorf("Id \"\" is not a valid logging id")`. -/
  | emptyId
  /-- The call `fmt.Errorf("Invalid Logging sink id: %s", id)`. -/
  | invalidSinkId (id : String)
  /-- The call `fmt.Errorf("Logging resource type %s is not valid. Valid resource types: %#v", reported, valid)`. -/
  | invalidResourceType (reported : String) (valid : List String)
  deriving DecidableEq

/-- What a call of `parseLoggingSinkId` does: return a value, return an error,
or panic. -/
inductive Outcome where
  | ok (l : LoggingSinkId)
  | error (e : ParseError)
  | panic
  deriving DecidableEq

/-- The function `parseLoggingSinkId`. -/
def parseLoggingSinkId (id defaultResourceName defaultResourceType : String) : Outcome :=
  if id = "" then .error .emptyId
  else
    let parts := strings.Split id
    let len : Int := parts.length
    -- sinkName := parts[len(parts)-1]
    match index parts (len - 1) with
    | none => .panic
    | some sinkName =>
      -- if len(parts) >= 2 && parts[len(parts)-2] != "sinks"
      match (if len ≥ 2 then (index parts (len - 2)).map (fun p => p != "sinks") else some false) with
      | none => .panic
      | some true => .error (.invalidSinkId id)
      | some false =>
        -- if len(parts) >= 3 { resourceId = parts[len(parts)-3] }
        match (if len ≥ 3 then index parts (len - 3) else some defaultResourceName) with
        | none => .panic
        | some resourceId =>
          -- if len(parts) == 4 { resourceType = parts[len(parts)-4] }
          match (if len = 4 then index parts (len - 4) else some defaultResourceType) with
          | none => .panic
          | some resourceType =>
            if len > 4 then .error (.invalidSinkId id)
            else
              let validLoggingSinkResourceType :=
                loggingSinkResourceTypes.any (fun v => v == resourceType)
              if !validLoggingSinkResourceType then
                -- the format argument is parts[1]
                match index parts 1 with
                | none => .panic
                | some reported =>
                  .error (.invalidResourceType reported loggingSinkResourceTypes)
              else .ok ⟨resourceType, resourceId, sinkName⟩

/-! ## Config builder (`google/config_builder.go`)

A Go `map[string]interface{}` is an association list with distinct keys; the
order of the list stands for the order in which `range` visits the map, which Go
leaves unspecified.  The map is non-nil, as both constructors make it.  Builders are passed by value: the state after a pointer
method is the returned builder.  Indentation widths are natural numbers. -/

/-- The struct `ConfigBuilder`, with the type of its attribute values left open
so that the values can themselves hold builders. -/
structure ConfigBuilderOf (α : Type) where
  ResourceName : String
  ResourceType : String
  Attributes : List (String × α)

/-- A value of type `interface{}` as `asSimpleYAML` and `StringWithIndent` tell
them apart, by dynamic type. -/
inductive Value where
  /-- An `int`. -/
  | int (n : Int)
  /-- A `string`. -/
  | string (s : String)
  /-- A `[]interface{}`. -/
  | slice (xs : List Value)
  /-- A non-nil `*ConfigBuilder`, as returned by `NewNestedConfig`. -/
  | configBuilderPtr (rb : ConfigBuilderOf Value)
  /-- A `ConfigBuilder` struct value. -/
  | configBuilder (rb : ConfigBuilderOf Value)
  /-- Any other value with a `String()` method, which returns `s`. -/
  | stringer (s : String)
  /-- Any value of another type. -/
  | unknown

/-- The struct `ConfigBuilder`. -/
abbrev ConfigBuilder := ConfigBuilderOf Value

/-- Map read `m[k]` with the comma-ok result. -/
def mapGet {α : Type} : List (String × α) → String → Option α
  | [], _ => none
  | (k', v') :: rest, k => if k' = k then some v' else mapGet rest k

/-- Map write `m[k] = v`. -/
def mapSet {α : Type} : List (String × α) → String → α → List (String × α)
  | [], k, v => [(k, v)]
  | (k', v') :: rest, k, v =>
    if k' = k then (k, v) :: rest else (k', v') :: mapSet rest k v

/-- The function `NewResourceConfigBuilder`. -/
def NewResourceConfigBuilder (typ name : String) : ConfigBuilder :=
  { ResourceName := name, ResourceType := typ, Attributes := [] }

/-- The function `NewNestedConfig`: both names are the zero value `""`. -/
def NewNestedConfig : ConfigBuilder :=
  { ResourceName := "", ResourceType := "", Attributes := [] }

/-- The variadic argument `objs` of a call `WithAttribute(key, obj, o1, ..., on)`:
the nil slice when no extra value is written, the slice of the extra values
otherwise. -/
def variadic : List Value → Option (List Value)
  | [] => none
  | o :: os => some (o :: os)

/-- The method `WithAttribute`; `objs` is `none` for the nil slice. -/
def WithAttribute (rb : ConfigBuilder) (key : String) (obj : Value)
    (objs : Option (List Value)) : ConfigBuilder :=
  match objs with
  | some os =>
    -- arr[0] = obj; arr[idx+1] = objs[idx]
    WithAttribute rb key (.slice (obj :: os)) none
  | none => { rb with Attributes := mapSet rb.Attributes key obj }
termination_by (if objs.isSome then 1 else 0 : Nat)
decreasing_by simp

/-- The function `spacesOfLength`. -/
def spacesOfLength (len : Nat) : String :=
  String.mk (List.replicate len ' ')

/-- The test `reflect.TypeOf(v) != confBuilderType`, where `confBuilderType` is
`reflect.TypeOf((*ConfigBuilder)(nil)).Elem()`, the struct type `ConfigBuilder`. -/
def typeIsNotConfBuilderType : Value → Bool
  | .configBuilder _ => false
  | _ => true

mutual
/-- The function `asSimpleYAML`. -/
def asSimpleYAML (v : Value) (indent indentLen : Nat) : String :=
  match v with
  | .int n => toString n
  | .string s => "\"" ++ s ++ "\""
  | .slice xs => "[" ++ asSimpleYAML.elements xs 0 indent indentLen ++ "]"
  | .configBuilderPtr rb => StringWithIndent rb (indent + indentLen) indentLen true
  | .configBuilder rb => StringWithIndent rb (indent + indentLen) indentLen true
  | .stringer s => s
  | .unknown => "**UNKNOWN**"
termination_by structural v
/-- The loop of `asSimpleYAML` over the elements of a slice, from index `idx`. -/
def asSimpleYAML.elements (xs : List Value) (idx indent indentLen : Nat) : String :=
  match xs with
  | [] => ""
  | x :: rest =>
    (if idx ≠ 0 then ", " else "") ++ asSimpleYAML x indent indentLen
      ++ asSimpleYAML.elements rest (idx + 1) indent indentLen
termination_by structural xs
/-- The method `StringWithIndent`. -/
def StringWithIndent (rb : ConfigBuilderOf Value) (indent indentLen : Nat) (embedded : Bool) :
    String :=
  match rb with
  | ⟨resourceName, resourceType, attributes⟩ =>
    (if !embedded then spacesOfLength indent else "")
      ++ (if resourceName ≠ "" ∧ resourceType ≠ ""
          then "resource \"" ++ resourceType ++ "\" \"" ++ resourceName ++ "\" " else "")
      ++ "\x7b\n"
      ++ StringWithIndent.attributes attributes indent indentLen
      ++ (spacesOfLength indent ++ "\x7d\n")
termination_by structural rb
/-- The loop of `StringWithIndent` over the attributes. -/
def StringWithIndent.attributes (attributes : List (String × Value)) (indent indentLen : Nat) :
    String :=
  match attributes with
  | [] => ""
  | (k, v) :: rest =>
    spacesOfLength (indent + indentLen)
      ++ (k ++ " ")
      ++ (if typeIsNotConfBuilderType v then "= " else "")
      ++ asSimpleYAML v indent indentLen
      ++ "\n"
      ++ StringWithIndent.attributes rest indent indentLen
termination_by structural attributes
end

/-- The method `String` of `ConfigBuilder`. -/
def ConfigBuilderOf.String (rb : ConfigBuilder) : String :=
  StringWithIndent rb 0 4 false

/-! ## Label checks (`google/test_utils.go`)

A value handed to `reflect.ValueOf` is described by its kind and, for structs,
pointers and maps, by what the functions below read from it.  Struct fields are
the struct's own fields (no promotion through embedded structs). -/

/-- The kinds of `reflect.Kind`, as listed in `kindToString`. -/
inductive Kind where
  | Invalid | Bool | Int | Int8 | Int16 | Int32 | Int64
  | Uint | Uint8 | Uint16 | Uint32 | Uint64 | Uintptr
  | Float32 | Float64 | Complex64 | Complex128
  | Array | Chan | Func | Interface | Map | Ptr | Slice | String | Struct | UnsafePointer
  deriving DecidableEq

/-- The table `kindToString`. -/
def kindToString : Kind → String
  | .Invalid => "Invalid" | .Bool => "Bool" | .Int => "Int" | .Int8 => "Int8"
  | .Int16 => "Int16" | .Int32 => "Int32" | .Int64 => "Int64" | .Uint => "Uint"
  | .Uint8 => "Uint8" | .Uint16 => "Uint16" | .Uint32 => "Uint32" | .Uint64 => "Uint64"
  | .Uintptr => "Uintptr" | .Float32 => "Float32" | .Float64 => "Float64"
  | .Complex64 => "Complex64" | .Complex128 => "Complex128" | .Array => "Array"
  | .Chan => "Chan" | .Func => "Func" | .Interface => "Interface" | .Map => "Map"
  | .Ptr => "Ptr" | .Slice => "Slice" | .String => "String" | .Struct => "Struct"
  | .UnsafePointer => "UnsafePointer"

/-- A Go value as seen through `reflect`. -/
inductive GoValue where
  /-- A struct value with its fields, by name. -/
  | struct (fields : List (String × GoValue))
  /-- A non-nil pointer to a value. -/
  | ptr (elem : GoValue)
  /-- A `map[string]string` (the nil map is the empty list). -/
  | mapStringString (m : List (String × String))
  /-- A map of any other type. -/
  | otherMap
  /-- A value of any kind other than struct, pointer and map; the nil interface
  has kind `Invalid`. -/
  | other (k : Kind)

/-- The method `Kind` of `reflect.Value`; `none` is the zero `reflect.Value`. -/
def GoValue.Kind : Option GoValue → Kind
  | none => .Invalid
  | some (.struct _) => .Struct
  | some (.ptr _) => .Ptr
  | some (.mapStringString _) => .Map
  | some .otherMap => .Map
  | some (.other k) => k

/-- The method `FieldByName` on a value of kind struct: the zero
`reflect.Value` when there is no such field. -/
def GoValue.FieldByName : GoValue → String → Option GoValue
  | .struct fields, name => mapGet fields name
  | _, _ => none

/-- Whether a field name is exported: its first character is an upper-case
letter (ASCII letters only here). -/
def isExported (name : String) : Bool :=
  match name.data with
  | c :: _ => c.isUpper
  | [] => false

/-- The `fmt.Errorf` call sites of `ReflectMapStringStringFromStruct` and
`CheckStructHasLabel`, each with the arguments given to its format string. -/
inductive LabelError where
  /-- Go format: "Expected to reflect on value of type struct, but got %#v". -/
  | notStruct (kind : String)
  /-- Go format: "Expected struct's field %#v to have type map, but instead found %#v". -/
  | notMap (fieldName : String) (kind : Kind)
  /-- Go format: "Expected type map[string]string for field %s but it's a different map type". -/
  | notMapStringString (fieldName : String)
  /-- Go format: "Expected label key '%s' with value '%s' not found: labels = %#v". -/
  | keyNotFound (labelKey labelValue : String) (labels : List (String × String))
  /-- Go format: "Label value for key '%s' does not match: expected '%s', but found '%s'". -/
  | valueMismatch (labelKey labelValue found : String)
  deriving DecidableEq

/-- What a call does: return a result with a nil error, return a non-nil
error, or panic. -/
inductive Result (α : Type) where
  | ok (a : α)
  | error (e : LabelError)
  | panic
  deriving DecidableEq

/-- The function `ReflectMapStringStringFromStruct`. -/
def ReflectMapStringStringFromStruct (strct : GoValue) (fieldName : String) :
    Result (List (String × String)) :=
  let strctVal := some strct
  -- on kind Ptr the code calls strctVal.Pointer() and drops the result:
  -- strctVal is not changed
  if GoValue.Kind strctVal ≠ .Struct then
    .error (.notStruct (kindToString (GoValue.Kind strctVal)))
  else
    let fieldVal := strct.FieldByName fieldName
    if GoValue.Kind fieldVal ≠ .Map then
      .error (.notMap fieldName (GoValue.Kind fieldVal))
    else if !isExported fieldName then
      -- fieldVal.Interface() panics on a value read from an unexported field
      .panic
    else
      match fieldVal with
      | some (.mapStringString mp) => .ok mp
      | _ => .error (.notMapStringString fieldName)

/-- The function `CheckStructHasLabel`; `ok ()` is the nil error. -/
def CheckStructHasLabel (strct : GoValue) (labelKey labelValue : String) : Result Unit :=
  match ReflectMapStringStringFromStruct strct "Labels" with
  | .panic => .panic
  | .error err => .error err
  | .ok labels =>
    match mapGet labels labelKey with
    | none => .error (.keyNotFound labelKey labelValue labels)
    | some v =>
      if v ≠ labelValue then .error (.valueMismatch labelKey labelValue v)
      else .ok ()

/-! ## Splitting and indexing -/

theorem splitChars_ne_nil (l : List Char) : splitChars l ≠ [] := by
  cases l with
  | nil => simp [splitChars]
  | cons c cs =>
    unfold splitChars
    split
    · simp
    · split <;> simp

theorem splitChars_of_not_mem (a : List Char) (h : '/' ∉ a) : splitChars a = [a] := by
  induction a with
  | nil => rfl
  | cons c cs ih =>
    simp only [List.mem_cons, not_or] at h
    have hc : c ≠ '/' := fun e => h.1 e.symm
    simp [splitChars, hc, ih h.2]

theorem splitChars_append (a b : List Char) (h : '/' ∉ a) :
    splitChars (a ++ '/' :: b) = a :: splitChars b := by
  induction a with
  | nil => simp [splitChars]
  | cons c cs ih =>
    simp only [List.mem_cons, not_or] at h
    have hc : c ≠ '/' := fun e => h.1 e.symm
    simp [splitChars, hc, ih h.2]

theorem splitChars_length (l : List Char) : (splitChars l).length = l.count '/' + 1 := by
  induction l with
  | nil => rfl
  | cons c cs ih =>
    unfold splitChars
    by_cases hc : c = '/'
    · subst hc
      simp [ih]
    · have hc2 : ¬ ((c == '/') = true) := by simpa using hc
      rw [if_neg hc]
      cases hs : splitChars cs with
      | nil => exact absurd hs (splitChars_ne_nil cs)
      | cons p ps =>
        rw [hs] at ih
        simp [List.count_cons, hc2] at ih ⊢
        omega

theorem index_length_sub (xs : List String) (k : Nat) (hle : k ≤ xs.length) :
    index xs ((xs.length : Int) - (k : Int)) = xs[xs.length - k]? := by
  unfold index
  have h1 : ¬ ((xs.length : Int) - (k : Int) < 0) := by omega
  have h2 : ((xs.length : Int) - (k : Int)).toNat = xs.length - k := by omega
  rw [if_neg h1, h2]


theorem any_eq_mem (xs : List String) (t : String) :
    xs.any (fun v => v == t) = decide (t ∈ xs) := by
  induction xs with
  | nil => simp
  | cons x xs ih =>
    rw [List.any_cons, ih, Bool.eq_iff_iff]
    simp only [Bool.or_eq_true, beq_iff_eq, decide_eq_true_eq, List.mem_cons]
    constructor
    · rintro (h | h)
      · exact Or.inl h.symm
      · exact Or.inr h
    · rintro (h | h)
      · exact Or.inl h.symm
      · exact Or.inr h

theorem bne_sinks (s : String) : (s != "sinks") = decide (s ≠ "sinks") := by
  by_cases h : s = "sinks"
  · subst h; rfl
  · rw [decide_eq_true h]
    exact bne_iff_ne.mpr h

theorem split_empty : strings.Split "" = [""] := rfl

theorem parse_one (id d t n : String) (hid : id ≠ "") (h : strings.Split id = [n]) :
    parseLoggingSinkId id d t =
      if t ∈ loggingSinkResourceTypes then .ok ⟨t, d, n⟩ else .panic := by
  unfold parseLoggingSinkId
  rw [if_neg hid]
  simp only [h, any_eq_mem]
  by_cases ht : t ∈ loggingSinkResourceTypes <;> simp [index, ht]

theorem ne_empty_of_split (id : String) (h : 2 ≤ (strings.Split id).length) : id ≠ "" := by
  intro e
  subst e
  rw [split_empty] at h
  simp at h

theorem parse_two (id d t s n : String) (h : strings.Split id = [s, n]) :
    parseLoggingSinkId id d t =
      if s ≠ "sinks" then .error (.invalidSinkId id)
      else if t ∈ loggingSinkResourceTypes then .ok ⟨t, d, n⟩
      else .error (.invalidResourceType n loggingSinkResourceTypes) := by
  have hid : id ≠ "" := ne_empty_of_split id (by simp [h])
  unfold parseLoggingSinkId
  rw [if_neg hid]
  simp only [h, any_eq_mem, bne_sinks]
  by_cases hs : s = "sinks" <;> by_cases ht : t ∈ loggingSinkResourceTypes <;>
    simp [index, ht, hs]

theorem parse_three (id d t i s n : String) (h : strings.Split id = [i, s, n]) :
    parseLoggingSinkId id d t =
      if s ≠ "sinks" then .error (.invalidSinkId id)
      else if t ∈ loggingSinkResourceTypes then .ok ⟨t, i, n⟩
      else .error (.invalidResourceType s loggingSinkResourceTypes) := by
  have hid : id ≠ "" := ne_empty_of_split id (by simp [h])
  unfold parseLoggingSinkId
  rw [if_neg hid]
  simp only [h, any_eq_mem, bne_sinks]
  by_cases hs : s = "sinks" <;> by_cases ht : t ∈ loggingSinkResourceTypes <;>
    simp [index, ht, hs]

theorem parse_four (id d t r i s n : String) (h : strings.Split id = [r, i, s, n]) :
    parseLoggingSinkId id d t =
      if s ≠ "sinks" then .error (.invalidSinkId id)
      else if r ∈ loggingSinkResourceTypes then .ok ⟨r, i, n⟩
      else .error (.invalidResourceType i loggingSinkResourceTypes) := by
  have hid : id ≠ "" := ne_empty_of_split id (by simp [h])
  unfold parseLoggingSinkId
  rw [if_neg hid]
  simp only [h, any_eq_mem, bne_sinks]
  by_cases hs : s = "sinks" <;> by_cases ht : r ∈ loggingSinkResourceTypes <;>
    simp [index, ht, hs]

theorem parse_many (id d t : String) (h : 4 < (strings.Split id).length) :
    parseLoggingSinkId id d t = .error (.invalidSinkId id) := by
  have hid : id ≠ "" := ne_empty_of_split id (by omega)
  unfold parseLoggingSinkId
  rw [if_neg hid]
  dsimp only
  have e1 := index_length_sub (strings.Split id) 1 (by omega)
  have e2 := index_length_sub (strings.Split id) 2 (by omega)
  have e3 := index_length_sub (strings.Split id) 3 (by omega)
  simp only [Nat.cast_one, Nat.cast_ofNat] at e1 e2 e3
  rw [e1, e2, e3]
  have l1 : (strings.Split id).length - 1 < (strings.Split id).length := by omega
  have l2 : (strings.Split id).length - 2 < (strings.Split id).length := by omega
  have l3 : (strings.Split id).length - 3 < (strings.Split id).length := by omega
  rw [List.getElem?_eq_getElem l1, List.getElem?_eq_getElem l2, List.getElem?_eq_getElem l3]
  have g2 : ((strings.Split id).length : Int) ≥ 2 := by omega
  have g3 : ((strings.Split id).length : Int) ≥ 3 := by omega
  have g4 : ¬ ((strings.Split id).length : Int) = 4 := by omega
  have g5 : ((strings.Split id).length : Int) > 4 := by omega
  simp only [if_pos g2, if_pos g3, if_neg g4, if_pos g5, Option.map_some']
  split <;> first | rfl | simp_all

/-- second-to-last piece differs from `sinks`. -/
theorem parse_no_sinks (id d t : String) (pre : List String) (x n : String)
    (h : strings.Split id = pre ++ [x, n]) (hx : x ≠ "sinks") :
    parseLoggingSinkId id d t = .error (.invalidSinkId id) := by
  have hlen : (strings.Split id).length = pre.length + 2 := by simp [h]
  have hid : id ≠ "" := ne_empty_of_split id (by omega)
  unfold parseLoggingSinkId
  rw [if_neg hid]
  dsimp only
  have e1 := index_length_sub (strings.Split id) 1 (by omega)
  have e2 := index_length_sub (strings.Split id) 2 (by omega)
  simp only [Nat.cast_one, Nat.cast_ofNat] at e1 e2
  rw [e1, e2]
  have g2 : ((strings.Split id).length : Int) ≥ 2 := by omega
  rw [if_pos g2]
  have a1 : (strings.Split id)[(strings.Split id).length - 1]? = some n := by
    rw [hlen, h, List.getElem?_append_right (by omega)]
    have : pre.length + 2 - 1 - pre.length = 1 := by omega
    rw [this]; rfl
  have a2 : (strings.Split id)[(strings.Split id).length - 2]? = some x := by
    rw [hlen, h, List.getElem?_append_right (by omega)]
    have : pre.length + 2 - 2 - pre.length = 0 := by omega
    rw [this]; rfl
  rw [a1, a2]
  simp [bne_sinks, hx]


theorem split_of_not_mem (s : String) (h : '/' ∉ s.data) : strings.Split s = [s] := by
  unfold strings.Split
  rw [splitChars_of_not_mem s.data h]
  rfl

theorem split_append (a b : String) (h : '/' ∉ a.data) :
    strings.Split (a ++ "/" ++ b) = a :: strings.Split b := by
  unfold strings.Split
  have e : (a ++ "/" ++ b).data = a.data ++ '/' :: b.data := by
    simp [String.data_append]
  rw [e, splitChars_append a.data b.data h]
  rfl

theorem canonical_assoc (r i n : String) :
    r ++ "/" ++ i ++ "/sinks/" ++ n = r ++ "/" ++ (i ++ "/" ++ ("sinks" ++ "/" ++ n)) := by
  apply String.ext
  simp [String.data_append]

theorem split_canonical (r i n : String) (hr : '/' ∉ r.data) (hi : '/' ∉ i.data)
    (hn : '/' ∉ n.data) :
    strings.Split (r ++ "/" ++ i ++ "/sinks/" ++ n) = [r, i, "sinks", n] := by
  rw [canonical_assoc, split_append r _ hr, split_append i _ hi,
    split_append "sinks" n (by decide), split_of_not_mem n hn]

theorem not_mem_of_resourceType (t : String) (h : t ∈ loggingSinkResourceTypes) :
    '/' ∉ t.data := by
  simp only [loggingSinkResourceTypes, List.mem_cons, List.mem_singleton, List.mem_nil_iff,
    or_false] at h
  rcases h with h | h | h | h <;> subst h <;> decide

theorem split_length (s : String) : (strings.Split s).length = s.data.count '/' + 1 := by
  unfold strings.Split
  rw [List.length_map, splitChars_length]


theorem parse_empty (d t : String) : parseLoggingSinkId "" d t = .error .emptyId := by
  unfold parseLoggingSinkId
  rw [if_pos rfl]

/-! ## Round trip and fully qualified ids -/

/-- C1, as stated, fails: the value with resource type `projects`, resource id
`a/b` and name `n` meets every condition of the claim, yet parsing its canonical
form `projects/a/b/sinks/n` gives the invalid-identifier error (five pieces). -/
theorem roundtrip_fails_on_slash_in_resourceId :
    "projects" ∈ loggingSinkResourceTypes ∧ ("a/b" : String) ≠ "" ∧ ("n" : String) ≠ "" ∧
    parseLoggingSinkId (LoggingSinkId.canonicalId ⟨"projects", "a/b", "n"⟩) "d" "projects"
      = .error (.invalidSinkId "projects/a/b/sinks/n") := by
  decide

/-- C1 (amended): for every `LoggingSinkId` whose resource type is in the allowed
set and whose resource id and name are non-empty and contain no `/`, parsing the
canonical form succeeds and returns the value itself, whatever the defaults. -/
theorem parse_canonicalId_roundtrip (v : LoggingSinkId) (d t : String)
    (hT : v.resourceType ∈ loggingSinkResourceTypes)
    (_hI : v.resourceId ≠ "") (_hN : v.name ≠ "")
    (hIs : '/' ∉ v.resourceId.data) (hNs : '/' ∉ v.name.data) :
    parseLoggingSinkId v.canonicalId d t = .ok v := by
  have hs := split_canonical v.resourceType v.resourceId v.name
    (not_mem_of_resourceType _ hT) hIs hNs
  unfold LoggingSinkId.canonicalId
  rw [parse_four _ d t _ _ _ _ hs]
  simp [hT]

/-- Instance of the amended C1 at `projects/my-project/sinks/my-sink`, parsed
  with defaults that are themselves invalid. -/
theorem parse_canonicalId_roundtrip_witness :
    parseLoggingSinkId (LoggingSinkId.canonicalId ⟨"projects", "my-project", "my-sink"⟩)
      "InvalidResourceId" "invalidResourceType" = .ok ⟨"projects", "my-project", "my-sink"⟩ :=
  parse_canonicalId_roundtrip ⟨"projects", "my-project", "my-sink"⟩
    "InvalidResourceId" "invalidResourceType"
    (by decide) (by decide) (by decide) (by decide) (by decide)

/-- C2: an input `T/I/sinks/N` with `T` in the allowed set and `I`, `N` free of
`/` parses, for all defaults, to the triple `T`, `I`, `N`, and the canonical id of
the result is the input string again. -/
theorem parse_fully_qualified (T I N d t : String)
    (hT : T ∈ loggingSinkResourceTypes) (hI : '/' ∉ I.data) (hN : '/' ∉ N.data) :
    ∃ r, parseLoggingSinkId (T ++ "/" ++ I ++ "/sinks/" ++ N) d t = .ok r ∧
      r = ⟨T, I, N⟩ ∧ r.canonicalId = T ++ "/" ++ I ++ "/sinks/" ++ N := by
  refine ⟨⟨T, I, N⟩, ?_, rfl, rfl⟩
  rw [parse_four _ d t _ _ _ _ (split_canonical T I N (not_mem_of_resourceType _ hT) hI hN)]
  simp [hT]

/-- Instance of C2 at `folders/foofolder/sinks/woo`. -/
theorem parse_fully_qualified_witness :
    ∃ r, parseLoggingSinkId ("folders" ++ "/" ++ "foofolder" ++ "/sinks/" ++ "woo")
        "InvalidResourceId" "invalidResourceType" = .ok r ∧
      r = ⟨"folders", "foofolder", "woo"⟩ ∧
      r.canonicalId = "folders" ++ "/" ++ "foofolder" ++ "/sinks/" ++ "woo" :=
  parse_fully_qualified "folders" "foofolder" "woo" "InvalidResourceId" "invalidResourceType"
    (by decide) (by decide) (by decide)

/-! ## The invalid-resource-type branch -/

/-- C3 fails on the code: the id `my-sink` is well shaped (non-empty, one
piece) and the resolved resource type `kitchens` is not allowed, but the call
panics on `parts[1]` instead of returning the invalid-resource-type error. -/
theorem parse_one_segment_invalid_type_panics :
    ("my-sink" : String) ≠ "" ∧ strings.Split "my-sink" = ["my-sink"] ∧
    "kitchens" ∉ loggingSinkResourceTypes ∧
    parseLoggingSinkId "my-sink" "my-project" "kitchens" = .panic := by
  decide

/-- C4 fails on the code: the call panics exactly when the id is non-empty, has
no `/` (one piece) and the default resource type is not allowed; the index
`parts[1]` of the error message is then out of range. -/
theorem parse_panics_iff (id d t : String) :
    parseLoggingSinkId id d t = .panic ↔
      id ≠ "" ∧ '/' ∉ id.data ∧ t ∉ loggingSinkResourceTypes := by
  constructor
  · intro h
    by_cases hid : id = ""
    · subst hid
      rw [parse_empty] at h
      exact Outcome.noConfusion h
    · have hlen := split_length id
      rcases hS : strings.Split id with
        _ | ⟨a, _ | ⟨b, _ | ⟨c, _ | ⟨e, _ | ⟨f, rest⟩⟩⟩⟩⟩
      · rw [hS] at hlen; simp at hlen
      · rw [parse_one id d t a hid hS] at h
        rw [hS] at hlen
        refine ⟨hid, ?_, ?_⟩
        · have : id.data.count '/' = 0 := by simpa using hlen.symm
          exact List.count_eq_zero.mp this
        · intro ht
          rw [if_pos ht] at h
          exact Outcome.noConfusion h
      · rw [parse_two id d t a b hS] at h
        split at h
        · exact Outcome.noConfusion h
        · split at h <;> exact Outcome.noConfusion h
      · rw [parse_three id d t a b c hS] at h
        split at h
        · exact Outcome.noConfusion h
        · split at h <;> exact Outcome.noConfusion h
      · rw [parse_four id d t a b c e hS] at h
        split at h
        · exact Outcome.noConfusion h
        · split at h <;> exact Outcome.noConfusion h
      · rw [parse_many id d t (by simp [hS])] at h
        exact Outcome.noConfusion h
  · rintro ⟨hid, hs, ht⟩
    rw [parse_one id d t id hid (split_of_not_mem id hs), if_neg ht]

/-! ## Shorthand forms -/

/-- C5, as stated, fails: with the arguments in the order
`("my-sink-name", "projects", "my-project")` the default resource type is
`my-project`, and the call does not return the triple of the claim. -/
theorem parse_scenario_swapped_defaults_not_ok :
    parseLoggingSinkId "my-sink-name" "projects" "my-project"
      ≠ .ok ⟨"projects", "my-project", "my-sink-name"⟩ := by
  decide

/-- C5 (amended): with the defaults in the order of the parameters
(`defaultResourceName` then `defaultResourceType`) the id `my-sink-name` parses to
type `projects`, id `my-project`, name `my-sink-name`; in the order of the claim
the default type `my-project` is not allowed and no `LoggingSinkId` is returned. -/
theorem parse_scenario_bare_name :
    parseLoggingSinkId "my-sink-name" "my-project" "projects"
      = .ok ⟨"projects", "my-project", "my-sink-name"⟩ ∧
    "my-project" ∉ loggingSinkResourceTypes ∧
    ∀ l, parseLoggingSinkId "my-sink-name" "projects" "my-project" ≠ .ok l := by
  refine ⟨by decide, by decide, ?_⟩
  intro l h
  rw [parse_one "my-sink-name" "projects" "my-project" "my-sink-name" (by decide) (by decide)] at h
  rw [if_neg (by decide)] at h
  exact Outcome.noConfusion h

/-- C6: with an allowed default resource type `t` and `N`, `I` non-empty and free
of `/`, the ids `N` and `sinks/N` parse to type `t`, id `d`, name `N`, and the id
`I/sinks/N` parses to type `t`, id `I`, name `N`. -/
theorem parse_shorthand (N I d t : String) (ht : t ∈ loggingSinkResourceTypes)
    (hN : N ≠ "") (_hI : I ≠ "") (hNs : '/' ∉ N.data) (hIs : '/' ∉ I.data) :
    parseLoggingSinkId N d t = .ok ⟨t, d, N⟩ ∧
    parseLoggingSinkId ("sinks/" ++ N) d t = .ok ⟨t, d, N⟩ ∧
    parseLoggingSinkId (I ++ "/sinks/" ++ N) d t = .ok ⟨t, I, N⟩ := by
  refine ⟨?_, ?_, ?_⟩
  · rw [parse_one N d t N hN (split_of_not_mem N hNs), if_pos ht]
  · have hs : strings.Split ("sinks/" ++ N) = ["sinks", N] := by
      have e : "sinks/" ++ N = "sinks" ++ "/" ++ N := by
        apply String.ext; simp [String.data_append]
      rw [e, split_append "sinks" N (by decide), split_of_not_mem N hNs]
    rw [parse_two _ d t _ _ hs]
    simp [ht]
  · have hs : strings.Split (I ++ "/sinks/" ++ N) = [I, "sinks", N] := by
      have e : I ++ "/sinks/" ++ N = I ++ "/" ++ ("sinks" ++ "/" ++ N) := by
        apply String.ext; simp [String.data_append]
      rw [e, split_append I _ hIs, split_append "sinks" N (by decide), split_of_not_mem N hNs]
    rw [parse_three _ d t _ _ _ hs]
    simp [ht]

/-- Instance of C6 with name `my-sink`, id `other-project` and the defaults
`my-project`, `projects`. -/
theorem parse_shorthand_witness :
    parseLoggingSinkId "my-sink" "my-project" "projects"
      = .ok ⟨"projects", "my-project", "my-sink"⟩ ∧
    parseLoggingSinkId ("sinks/" ++ "my-sink") "my-project" "projects"
      = .ok ⟨"projects", "my-project", "my-sink"⟩ ∧
    parseLoggingSinkId ("other-project" ++ "/sinks/" ++ "my-sink") "my-project" "projects"
      = .ok ⟨"projects", "other-project", "my-sink"⟩ :=
  parse_shorthand "my-sink" "other-project" "my-project" "projects"
    (by decide) (by decide) (by decide) (by decide) (by decide)

/-! ## Malformed ids -/

/-- C7: when the pieces of the id end in `x, n` with `x` different from `sinks`
(at least two pieces, the second-to-last not `sinks`), the call fails with the
invalid-identifier error for all defaults: it neither succeeds nor gives the
invalid-resource-type error.  With no piece before `x` this is the two-piece
form, so the only accepted two-piece form is `sinks/NAME`. -/
theorem parse_missing_sinks (id d t : String) (pre : List String) (x n : String)
    (h : strings.Split id = pre ++ [x, n]) (hx : x ≠ "sinks") :
    parseLoggingSinkId id d t = .error (.invalidSinkId id) ∧
    (∀ l, parseLoggingSinkId id d t ≠ .ok l) ∧
    (∀ r v, parseLoggingSinkId id d t ≠ .error (.invalidResourceType r v)) := by
  have e := parse_no_sinks id d t pre x n h hx
  refine ⟨e, ?_, ?_⟩
  · intro l hl
    rw [e] at hl
    exact Outcome.noConfusion hl
  · intro r v hr
    rw [e] at hr
    injection hr with hr
    exact ParseError.noConfusion hr

/-- Instance of C7 at the two-piece id `projects/my-sink`. -/
theorem parse_missing_sinks_witness :
    strings.Split "projects/my-sink" = [] ++ ["projects", "my-sink"] ∧
    ("projects" : String) ≠ "sinks" ∧
    (parseLoggingSinkId "projects/my-sink" "my-project" "projects"
        = .error (.invalidSinkId "projects/my-sink") ∧
      (∀ l, parseLoggingSinkId "projects/my-sink" "my-project" "projects" ≠ .ok l) ∧
      (∀ r v, parseLoggingSinkId "projects/my-sink" "my-project" "projects"
        ≠ .error (.invalidResourceType r v))) :=
  ⟨by decide, by decide,
    parse_missing_sinks "projects/my-sink" "my-project" "projects" [] "projects" "my-sink"
      (by decide) (by decide)⟩

/-- C8: an id with more than four pieces fails with the invalid-identifier
error, whatever the defaults. -/
theorem parse_too_many_segments (id d t : String) (h : 4 < (strings.Split id).length) :
    parseLoggingSinkId id d t = .error (.invalidSinkId id) :=
  parse_many id d t h

/-- Instance of C8 at a five-piece id whose second-to-last piece is `sinks`. -/
theorem parse_too_many_segments_witness :
    4 < (strings.Split "a/projects/my-project/sinks/my-sink").length ∧
    parseLoggingSinkId "a/projects/my-project/sinks/my-sink" "my-project" "projects"
      = .error (.invalidSinkId "a/projects/my-project/sinks/my-sink") :=
  ⟨by decide, parse_too_many_segments _ "my-project" "projects" (by decide)⟩

/-- C9 fails on the code: for `kitchens/the-big-one/sinks/x` the rejected
resource type is `kitchens`, but the error reports `parts[1]`, the resource id
`the-big-one`, for all defaults. -/
theorem parse_reports_second_segment (d t : String) :
    parseLoggingSinkId "kitchens/the-big-one/sinks/x" d t
      = .error (.invalidResourceType "the-big-one" loggingSinkResourceTypes) := by
  rw [parse_four _ d t "kitchens" "the-big-one" "sinks" "x" (by decide)]
  rw [if_neg (by decide), if_neg (by decide)]

/-- C10: for an id with exactly four pieces the outcome (value or error) is the
same for any two pairs of defaults. -/
theorem parse_four_segments_ignores_defaults (id d1 t1 d2 t2 : String)
    (h : (strings.Split id).length = 4) :
    parseLoggingSinkId id d1 t1 = parseLoggingSinkId id d2 t2 := by
  rcases hS : strings.Split id with _ | ⟨a, _ | ⟨b, _ | ⟨c, _ | ⟨e, _ | ⟨f, rest⟩⟩⟩⟩⟩ <;>
    rw [hS] at h <;> simp at h
  rw [parse_four id d1 t1 a b c e hS, parse_four id d2 t2 a b c e hS]

/-- Instance of C10 at `folders/foofolder/sinks/woo`, with invalid defaults on
one side. -/
theorem parse_four_segments_ignores_defaults_witness :
    (strings.Split "folders/foofolder/sinks/woo").length = 4 ∧
    parseLoggingSinkId "folders/foofolder/sinks/woo" "InvalidResourceId" "invalidResourceType"
      = parseLoggingSinkId "folders/foofolder/sinks/woo" "my-project" "projects" :=
  ⟨by decide, parse_four_segments_ignores_defaults _ _ _ _ _ (by decide)⟩

/-! ## Shape of accepted ids -/

theorem splitChars_not_mem (l : List Char) : ∀ p ∈ splitChars l, '/' ∉ p := by
  induction l with
  | nil => simp [splitChars]
  | cons c cs ih =>
    unfold splitChars
    by_cases hc : c = '/'
    · rw [if_pos hc]
      intro p hp
      rcases List.mem_cons.mp hp with e | hp
      · subst e; simp
      · exact ih p hp
    · rw [if_neg hc]
      cases hs : splitChars cs with
      | nil => exact absurd hs (splitChars_ne_nil cs)
      | cons q qs =>
        rw [hs] at ih
        intro p hp
        rcases List.mem_cons.mp hp with e | hp
        · subst e
          intro hmem
          rcases List.mem_cons.mp hmem with e | hmem
          · exact hc e.symm
          · exact ih q (List.mem_cons_self _ _) hmem
        · exact ih p (List.mem_cons_of_mem _ hp)

theorem splitChars_join (l : List Char) :
    ∀ a rest, splitChars l = a :: rest →
      l = a ++ (rest.map (fun p => '/' :: p)).flatten := by
  induction l with
  | nil =>
    intro a rest h
    simp [splitChars] at h
    rcases h with ⟨rfl, rfl⟩
    rfl
  | cons c cs ih =>
    intro a rest h
    unfold splitChars at h
    by_cases hc : c = '/'
    · rw [if_pos hc] at h
      cases hs : splitChars cs with
      | nil => exact absurd hs (splitChars_ne_nil cs)
      | cons q qs =>
        rw [hs] at h
        simp only [List.cons.injEq] at h
        rcases h with ⟨rfl, rfl⟩
        have := ih q qs hs
        simp [hc, ← this]
    · rw [if_neg hc] at h
      cases hs : splitChars cs with
      | nil => exact absurd hs (splitChars_ne_nil cs)
      | cons q qs =>
        rw [hs] at h
        simp only [List.cons.injEq] at h
        rcases h with ⟨rfl, rfl⟩
        have := ih q qs hs
        simp [← this]

theorem split_data (id : String) (ps : List String) (h : strings.Split id = ps) :
    splitChars id.data = ps.map String.data := by
  unfold strings.Split at h
  rw [← h, List.map_map]
  have : (String.data ∘ String.mk) = fun x => x := by funext x; rfl
  rw [this, List.map_id']

theorem split_not_mem (id p : String) (hp : p ∈ strings.Split id) : '/' ∉ p.data := by
  unfold strings.Split at hp
  rcases List.mem_map.mp hp with ⟨q, hq, rfl⟩
  exact splitChars_not_mem id.data q hq

theorem eq_of_split_one (id a : String) (h : strings.Split id = [a]) : id = a := by
  have h1 := splitChars_join id.data _ _ (split_data id _ h)
  apply String.ext
  simpa using h1

theorem eq_of_split_two (id a b : String) (h : strings.Split id = [a, b]) :
    id = a ++ "/" ++ b := by
  have h1 := splitChars_join id.data _ _ (split_data id _ h)
  apply String.ext
  simpa [String.data_append] using h1

theorem eq_of_split_three (id a b c : String) (h : strings.Split id = [a, b, c]) :
    id = a ++ "/" ++ b ++ "/" ++ c := by
  have h1 := splitChars_join id.data _ _ (split_data id _ h)
  apply String.ext
  simpa [String.data_append] using h1

theorem eq_of_split_four (id a b c e : String) (h : strings.Split id = [a, b, c, e]) :
    id = a ++ "/" ++ b ++ "/" ++ c ++ "/" ++ e := by
  have h1 := splitChars_join id.data _ _ (split_data id _ h)
  apply String.ext
  simpa [String.data_append] using h1

theorem parse_ok_cases (id d t : String) (l : LoggingSinkId)
    (h : parseLoggingSinkId id d t = .ok l) :
    id ≠ "" ∧ l.resourceType ∈ loggingSinkResourceTypes ∧
      ((strings.Split id = [l.name] ∧ l.resourceType = t ∧ l.resourceId = d) ∨
       (strings.Split id = ["sinks", l.name] ∧ l.resourceType = t ∧ l.resourceId = d) ∨
       (strings.Split id = [l.resourceId, "sinks", l.name] ∧ l.resourceType = t) ∨
       strings.Split id = [l.resourceType, l.resourceId, "sinks", l.name]) := by
  by_cases hid : id = ""
  · subst hid
    rw [parse_empty] at h
    exact Outcome.noConfusion h
  · refine ⟨hid, ?_⟩
    have hlen := split_length id
    rcases hS : strings.Split id with
      _ | ⟨a, _ | ⟨b, _ | ⟨c, _ | ⟨e, _ | ⟨f, rest⟩⟩⟩⟩⟩
    · rw [hS] at hlen; simp at hlen
    · rw [parse_one id d t a hid hS] at h
      split at h
      · next ht =>
        injection h with h
        subst h
        exact ⟨ht, Or.inl ⟨rfl, rfl, rfl⟩⟩
      · exact Outcome.noConfusion h
    · rw [parse_two id d t a b hS] at h
      split at h
      · exact Outcome.noConfusion h
      · next hs =>
        have hs : a = "sinks" := by simpa using hs
        split at h
        · next ht =>
          injection h with h
          subst h; subst hs
          exact ⟨ht, Or.inr (Or.inl ⟨rfl, rfl, rfl⟩)⟩
        · exact Outcome.noConfusion h
    · rw [parse_three id d t a b c hS] at h
      split at h
      · exact Outcome.noConfusion h
      · next hs =>
        have hs : b = "sinks" := by simpa using hs
        split at h
        · next ht =>
          injection h with h
          subst h; subst hs
          exact ⟨ht, Or.inr (Or.inr (Or.inl ⟨rfl, rfl⟩))⟩
        · exact Outcome.noConfusion h
    · rw [parse_four id d t a b c e hS] at h
      split at h
      · exact Outcome.noConfusion h
      · next hs =>
        have hs : c = "sinks" := by simpa using hs
        split at h
        · next ht =>
          injection h with h
          subst h; subst hs
          exact ⟨ht, Or.inr (Or.inr (Or.inr rfl))⟩
        · exact Outcome.noConfusion h
    · rw [parse_many id d t (by simp [hS])] at h
      exact Outcome.noConfusion h

/-! ## Config builder -/

theorem mapGet_mapSet_self {α : Type} (m : List (String × α)) (k : String) (v : α) :
    mapGet (mapSet m k v) k = some v := by
  induction m with
  | nil => simp [mapSet, mapGet]
  | cons p rest ih =>
    obtain ⟨k', v'⟩ := p
    by_cases hk : k' = k
    · simp [mapSet, mapGet, hk]
    · simp [mapSet, mapGet, hk, ih]

theorem mapGet_mapSet_ne {α : Type} (m : List (String × α)) (k k2 : String) (v : α)
    (h : k2 ≠ k) : mapGet (mapSet m k v) k2 = mapGet m k2 := by
  induction m with
  | nil => simp [mapSet, mapGet, h.symm]
  | cons p rest ih =>
    obtain ⟨k', v'⟩ := p
    by_cases hk : k' = k
    · subst hk
      simp [mapSet, mapGet, h.symm]
    · by_cases hk2 : k' = k2
      · subst hk2
        simp [mapSet, mapGet, hk]
      · simp [mapSet, mapGet, hk, hk2, ih]

theorem WithAttribute_none (rb : ConfigBuilder) (key : String) (obj : Value) :
    WithAttribute rb key obj none = { rb with Attributes := mapSet rb.Attributes key obj } := by
  rw [WithAttribute]

theorem WithAttribute_some (rb : ConfigBuilder) (key : String) (obj : Value) (os : List Value) :
    WithAttribute rb key obj (some os) = WithAttribute rb key (.slice (obj :: os)) none := by
  rw [WithAttribute]

/-! ## Formatting and invariants of parsed ids -/

/-- C11: for every `LoggingSinkId`, `parent` is resource type, `/`, resource id;
`canonicalId` is resource type, `/`, resource id, `/sinks/`, name; hence
`canonicalId` is `parent` followed by `/sinks/` and the name, and `parent` is a
strict prefix of `canonicalId`. -/
theorem parent_strict_prefix_of_canonicalId (v : LoggingSinkId) :
    v.parent = v.resourceType ++ "/" ++ v.resourceId ∧
    v.canonicalId = v.resourceType ++ "/" ++ v.resourceId ++ "/sinks/" ++ v.name ∧
    v.canonicalId = v.parent ++ "/sinks/" ++ v.name ∧
    v.parent.data <+: v.canonicalId.data ∧
    v.parent.length < v.canonicalId.length := by
  refine ⟨rfl, rfl, rfl, ?_, ?_⟩
  · refine ⟨("/sinks/" ++ v.name).data, ?_⟩
    simp [LoggingSinkId.canonicalId, LoggingSinkId.parent, String.data_append]
  · simp only [LoggingSinkId.canonicalId, LoggingSinkId.parent, String.length_append]
    have : ("/sinks/" : String).length = 7 := by decide
    omega

/-- C12: a `LoggingSinkId` returned by a successful call has a resource type in
`loggingSinkResourceTypes`, for any id and defaults. -/
theorem parse_ok_resourceType_mem (id d t : String) (l : LoggingSinkId)
    (h : parseLoggingSinkId id d t = .ok l) :
    l.resourceType ∈ loggingSinkResourceTypes :=
  (parse_ok_cases id d t l h).2.1

/-- Instance of C12 at the bare name `my-sink` with the defaults `my-project`,
`projects`. -/
theorem parse_ok_resourceType_mem_witness :
    parseLoggingSinkId "my-sink" "my-project" "projects"
      = .ok ⟨"projects", "my-project", "my-sink"⟩ ∧
    (⟨"projects", "my-project", "my-sink"⟩ : LoggingSinkId).resourceType
      ∈ loggingSinkResourceTypes :=
  ⟨by decide,
    parse_ok_resourceType_mem "my-sink" "my-project" "projects"
      ⟨"projects", "my-project", "my-sink"⟩ (by decide)⟩

/-- C13 fails on the code: with the non-empty default resource id `my-project`
the id `sinks/` is accepted with an empty name, and `projects//sinks/x` is
accepted with an empty resource id, although the bare empty name is rejected
by the first check; the canonical ids of the two results, `projects/my-project/sinks/`
and `projects//sinks/x`, have an empty part where the pattern
`(.+)/(.+)/sinks/(.+)` of `loggingSinkIdRegex` asks for a non-empty one. -/
theorem parse_accepts_empty_fields :
    ("my-project" : String) ≠ "" ∧
    parseLoggingSinkId "sinks/" "my-project" "projects"
      = .ok ⟨"projects", "my-project", ""⟩ ∧
    parseLoggingSinkId "projects//sinks/x" "my-project" "projects"
      = .ok ⟨"projects", "", "x"⟩ ∧
    parseLoggingSinkId "" "my-project" "projects" = .error .emptyId ∧
    LoggingSinkId.canonicalId ⟨"projects", "my-project", ""⟩ = "projects/my-project/sinks/" ∧
    LoggingSinkId.canonicalId ⟨"projects", "", "x"⟩ = "projects//sinks/x" := by
  decide

/-- For a successful call with a non-empty default resource id, the returned
resource id and name are both non-empty exactly when no `/`-separated piece of
the id is empty: the ids accepted with an empty field are those with an empty
piece. -/
theorem parse_ok_fields_nonempty_iff (id d t : String) (l : LoggingSinkId)
    (h : parseLoggingSinkId id d t = .ok l) (hd : d ≠ "") :
    (l.resourceId ≠ "" ∧ l.name ≠ "") ↔ ∀ p ∈ strings.Split id, p ≠ "" := by
  obtain ⟨_, hT, hc⟩ := parse_ok_cases id d t l h
  have hT0 : l.resourceType ≠ "" := by
    intro e
    rw [e] at hT
    exact absurd hT (by decide)
  have hs : ("sinks" : String) ≠ "" := by decide
  rcases hc with ⟨hS, _, hI⟩ | ⟨hS, _, hI⟩ | ⟨hS, _⟩ | hS <;> rw [hS]
  · rw [hI]
    simp [hd]
  · rw [hI]
    simp [hd, hs]
  · simp [hs]
  · simp [hs, hT0]

/-- The equivalence above at `other-project/sinks/my-sink`. -/
theorem parse_ok_fields_nonempty_iff_witness :
    (("other-project" : String) ≠ "" ∧ ("my-sink" : String) ≠ "") ↔
      ∀ p ∈ strings.Split "other-project/sinks/my-sink", p ≠ "" :=
  parse_ok_fields_nonempty_iff "other-project/sinks/my-sink" "my-project" "projects"
    ⟨"projects", "other-project", "my-sink"⟩ (by decide) (by decide)

/-- C14 fails on the code: a `*ConfigBuilder` from `NewNestedConfig` has a type
different from `confBuilderType` (the struct type), so its attribute line is key,
space, `= `, nested block, like every other value; the config with a nested
`labels` builder prints `labels = ` before the opening brace. -/
theorem nested_config_ptr_rendered_with_equals :
    (∀ (k : String) (rb : ConfigBuilder) (indent indentLen : Nat),
      StringWithIndent.attributes [(k, .configBuilderPtr rb)] indent indentLen
        = spacesOfLength (indent + indentLen) ++ (k ++ " ") ++ "= "
          ++ StringWithIndent rb (indent + indentLen) indentLen true ++ "\n" ++ "") ∧
    ConfigBuilderOf.String
      (WithAttribute (NewResourceConfigBuilder "google_container_node_pool" "np") "labels"
        (.configBuilderPtr
          (WithAttribute NewNestedConfig "my_label" (.string "my_label_value") none)) none)
      = "resource \"google_container_node_pool\" \"np\" \x7b\n"
        ++ "    labels = \x7b\n"
        ++ "        my_label = \"my_label_value\"\n"
        ++ "    \x7d\n"
        ++ "\n"
        ++ "\x7d\n" := by
  refine ⟨fun k rb indent indentLen => rfl, ?_⟩
  rw [WithAttribute_none, WithAttribute_none]
  decide

/-- C15: `WithAttribute(key, obj)` stores `obj` under `key`; with extra values
`o, os...` it stores the slice `obj, o, os...` (one longer than the extra values,
in order); other keys and both names are unchanged; the call with a non-nil
`objs` is one call with the nil slice, which returns without a further call. -/
theorem WithAttribute_sets_key (rb : ConfigBuilder) (key : String) (obj : Value) :
    mapGet (WithAttribute rb key obj (variadic [])).Attributes key = some obj ∧
    (∀ o os, mapGet (WithAttribute rb key obj (variadic (o :: os))).Attributes key
        = some (.slice (obj :: o :: os)) ∧
      (obj :: o :: os).length = (o :: os).length + 1) ∧
    (∀ extra k, k ≠ key →
      mapGet (WithAttribute rb key obj (variadic extra)).Attributes k
        = mapGet rb.Attributes k) ∧
    (∀ extra, (WithAttribute rb key obj (variadic extra)).ResourceName = rb.ResourceName ∧
      (WithAttribute rb key obj (variadic extra)).ResourceType = rb.ResourceType) ∧
    (∀ os, WithAttribute rb key obj (some os)
        = WithAttribute rb key (.slice (obj :: os)) none) ∧
    (∀ x, WithAttribute rb key x none
        = { rb with Attributes := mapSet rb.Attributes key x }) := by
  refine ⟨?_, ?_, ?_, ?_, WithAttribute_some rb key obj, WithAttribute_none rb key⟩
  · simp only [variadic]
    rw [WithAttribute_none]
    exact mapGet_mapSet_self _ _ _
  · intro o os
    refine ⟨?_, rfl⟩
    simp only [variadic]
    rw [WithAttribute_some, WithAttribute_none]
    exact mapGet_mapSet_self _ _ _
  · intro extra k hk
    cases extra with
    | nil =>
      simp only [variadic]
      rw [WithAttribute_none]
      exact mapGet_mapSet_ne _ _ _ _ hk
    | cons o os =>
      simp only [variadic]
      rw [WithAttribute_some, WithAttribute_none]
      exact mapGet_mapSet_ne _ _ _ _ hk
  · intro extra
    cases extra with
    | nil =>
      simp only [variadic]
      rw [WithAttribute_none]
      exact ⟨rfl, rfl⟩
    | cons o os =>
      simp only [variadic]
      rw [WithAttribute_some, WithAttribute_none]
      exact ⟨rfl, rfl⟩

/-- Instance of C15: the call `WithAttribute("tags", "my_tag", "my_other_tag")`
on a builder that already has `machine_type`. -/
theorem WithAttribute_sets_key_witness :
    mapGet (WithAttribute ⟨"", "", [("machine_type", .string "n1-highmem-4")]⟩ "tags"
        (.string "my_tag") (variadic [.string "my_other_tag"])).Attributes "tags"
      = some (.slice [.string "my_tag", .string "my_other_tag"]) ∧
    mapGet (WithAttribute ⟨"", "", [("machine_type", .string "n1-highmem-4")]⟩ "tags"
        (.string "my_tag") (variadic [.string "my_other_tag"])).Attributes "machine_type"
      = mapGet [("machine_type", Value.string "n1-highmem-4")] "machine_type" :=
  ⟨((WithAttribute_sets_key ⟨"", "", [("machine_type", .string "n1-highmem-4")]⟩ "tags"
      (.string "my_tag")).2.1 (.string "my_other_tag") []).1,
    (WithAttribute_sets_key ⟨"", "", [("machine_type", .string "n1-highmem-4")]⟩ "tags"
      (.string "my_tag")).2.2.1 [.string "my_other_tag"] "machine_type" (by decide)⟩

/-! ## Label checks -/

/-- C16 fails on the code: on the input of `TestReflectMapStringStringFromStruct`,
the struct whose `Labels` map holds `foobar` with value `bazz`, the check for key
`foobar` and value `baz` returns the value-mismatch error (expected `baz`, found
`bazz`) where the test asserts a nil error; the check for value `bazz` returns
the nil error. -/
theorem check_label_test_input :
    CheckStructHasLabel (.struct [("Labels", .mapStringString [("foobar", "bazz")])])
      "foobar" "baz" = .error (.valueMismatch "foobar" "baz" "bazz") ∧
    CheckStructHasLabel (.struct [("Labels", .mapStringString [("foobar", "bazz")])])
      "foobar" "bazz" = .ok () := by
  decide

/-- C17 fails on the code: for a pointer, whatever it points to, the call
returns the not-a-struct error with kind `Ptr`, while the struct value itself
gives the map of its `Labels` field. -/
theorem reflect_ptr_not_dereferenced :
    (∀ (elem : GoValue) (fieldName : String),
      ReflectMapStringStringFromStruct (.ptr elem) fieldName = .error (.notStruct "Ptr")) ∧
    ReflectMapStringStringFromStruct
      (.struct [("Labels", .mapStringString [("foobar", "bazz")])]) "Labels"
      = .ok [("foobar", "bazz")] ∧
    ReflectMapStringStringFromStruct
      (.ptr (.struct [("Labels", .mapStringString [("foobar", "bazz")])])) "Labels"
      = .error (.notStruct "Ptr") := by
  refine ⟨fun elem fieldName => rfl, by decide, by decide⟩

/-! ## Acceptance, idempotence, and the id as a suffix -/

/-- C18: the call returns a `LoggingSinkId` exactly when the id is non-empty,
has at most four pieces, has `sinks` as second-to-last piece when there are at
least two, and the resolved resource type (first piece when there are four,
else the default type) is allowed; the empty id gives the error of the first
check for all defaults. -/
theorem parse_ok_iff (id d t : String) :
    ((∃ l, parseLoggingSinkId id d t = .ok l) ↔
      id ≠ "" ∧ (strings.Split id).length ≤ 4 ∧
      (2 ≤ (strings.Split id).length →
        (strings.Split id)[(strings.Split id).length - 2]? = some "sinks") ∧
      (if (strings.Split id).length = 4 then (strings.Split id).headD "" else t)
        ∈ loggingSinkResourceTypes) ∧
    parseLoggingSinkId "" d t = .error .emptyId := by
  refine ⟨⟨?_, ?_⟩, parse_empty d t⟩
  · rintro ⟨l, h⟩
    obtain ⟨hid, hT, hc⟩ := parse_ok_cases id d t l h
    refine ⟨hid, ?_⟩
    rcases hc with ⟨hS, ht, _⟩ | ⟨hS, ht, _⟩ | ⟨hS, ht⟩ | hS <;> rw [hS]
    · subst ht; simpa using hT
    · subst ht; simpa using hT
    · subst ht; simpa using hT
    · simpa using hT
  · rintro ⟨hid, hlen, hs, ht⟩
    rcases hS : strings.Split id with
      _ | ⟨a, _ | ⟨b, _ | ⟨c, _ | ⟨e, _ | ⟨f, rest⟩⟩⟩⟩⟩
    · have := split_length id
      rw [hS] at this; simp at this
    · rw [hS] at ht
      simp only [List.length_singleton, OfNat.one_ne_ofNat, if_false] at ht
      exact ⟨_, by rw [parse_one id d t a hid hS, if_pos ht]⟩
    · rw [hS] at ht hs
      have hs : a = "sinks" := by simpa using hs
      have ht : t ∈ loggingSinkResourceTypes := by simpa using ht
      exact ⟨_, by rw [parse_two id d t a b hS, if_neg (by simpa using hs), if_pos ht]⟩
    · rw [hS] at ht hs
      have hs : b = "sinks" := by simpa using hs
      have ht : t ∈ loggingSinkResourceTypes := by simpa using ht
      exact ⟨_, by rw [parse_three id d t a b c hS, if_neg (by simpa using hs), if_pos ht]⟩
    · rw [hS] at ht hs
      have hs : c = "sinks" := by simpa using hs
      have ht : a ∈ loggingSinkResourceTypes := by simpa using ht
      exact ⟨_, by rw [parse_four id d t a b c e hS, if_neg (by simpa using hs), if_pos ht]⟩
    · rw [hS] at hlen
      simp at hlen

/-- C19: when a call succeeds with result `r` and `r.resourceId` has no `/`,
parsing `r.canonicalId` with any other defaults gives `r` again. -/
theorem parse_canonicalId_of_parse_ok (id d t d2 t2 : String) (r : LoggingSinkId)
    (h : parseLoggingSinkId id d t = .ok r) (hr : '/' ∉ r.resourceId.data) :
    parseLoggingSinkId r.canonicalId d2 t2 = .ok r := by
  obtain ⟨_, hT, hc⟩ := parse_ok_cases id d t r h
  have hn : '/' ∉ r.name.data := by
    apply split_not_mem id
    rcases hc with ⟨hS, _⟩ | ⟨hS, _⟩ | ⟨hS, _⟩ | hS <;> rw [hS] <;> simp
  have hs := split_canonical r.resourceType r.resourceId r.name
    (not_mem_of_resourceType _ hT) hr hn
  unfold LoggingSinkId.canonicalId
  rw [parse_four _ d2 t2 _ _ _ _ hs]
  simp [hT]

/-- Instance of C19: `my-sink` parsed with the defaults `my-project`, `projects`,
then its canonical id parsed with invalid defaults. -/
theorem parse_canonicalId_of_parse_ok_witness :
    parseLoggingSinkId
      (LoggingSinkId.canonicalId ⟨"projects", "my-project", "my-sink"⟩)
      "InvalidResourceId" "invalidResourceType"
      = .ok ⟨"projects", "my-project", "my-sink"⟩ :=
  parse_canonicalId_of_parse_ok "my-sink" "my-project" "projects"
    "InvalidResourceId" "invalidResourceType" ⟨"projects", "my-project", "my-sink"⟩
    (by decide) (by decide)

/-- C20: when a call succeeds with result `r`, the id is a suffix of
`r.canonicalId`: equal to it for four pieces, and preceded by `t/d/sinks/`,
`t/d/` or `t/` (from the defaults `d`, `t`) for one, two or three pieces; and
`r.name` is the last piece of the id and has no `/`. -/
theorem parse_ok_id_suffix_of_canonicalId (id d t : String) (r : LoggingSinkId)
    (h : parseLoggingSinkId id d t = .ok r) :
    id.data <:+ r.canonicalId.data ∧
    ((strings.Split id).length = 1 → r.canonicalId = t ++ "/" ++ d ++ "/sinks/" ++ id) ∧
    ((strings.Split id).length = 2 → r.canonicalId = t ++ "/" ++ d ++ "/" ++ id) ∧
    ((strings.Split id).length = 3 → r.canonicalId = t ++ "/" ++ id) ∧
    ((strings.Split id).length = 4 → r.canonicalId = id) ∧
    1 ≤ (strings.Split id).length ∧ (strings.Split id).length ≤ 4 ∧
    (strings.Split id).getLast? = some r.name ∧ '/' ∉ r.name.data := by
  obtain ⟨_, hT, hc⟩ := parse_ok_cases id d t r h
  have hn : '/' ∉ r.name.data := by
    apply split_not_mem id
    rcases hc with ⟨hS, _⟩ | ⟨hS, _⟩ | ⟨hS, _⟩ | hS <;> rw [hS] <;> simp
  rcases hc with ⟨hS, ht, hd⟩ | ⟨hS, ht, hd⟩ | ⟨hS, ht⟩ | hS
  · have e := eq_of_split_one id _ hS
    have hc : r.canonicalId = t ++ "/" ++ d ++ "/sinks/" ++ id := by
      rw [e]; unfold LoggingSinkId.canonicalId; rw [ht, hd]
    refine ⟨?_, ?_, ?_, ?_, ?_, ?_, ?_, ?_, hn⟩ <;> try (rw [hS]; simp; done)
    · rw [hc]
      exact ⟨(t ++ "/" ++ d ++ "/sinks/").data, by simp [String.data_append]⟩
    · intro _; exact hc
  · have e := eq_of_split_two id _ _ hS
    have hc : r.canonicalId = t ++ "/" ++ d ++ "/" ++ id := by
      rw [e]; unfold LoggingSinkId.canonicalId; rw [ht, hd]
      apply String.ext; simp [String.data_append]
    refine ⟨?_, ?_, ?_, ?_, ?_, ?_, ?_, ?_, hn⟩ <;> try (rw [hS]; simp; done)
    · rw [hc]
      exact ⟨(t ++ "/" ++ d ++ "/").data, by simp [String.data_append]⟩
    · intro _; exact hc
  · have e := eq_of_split_three id _ _ _ hS
    have hc : r.canonicalId = t ++ "/" ++ id := by
      rw [e]; unfold LoggingSinkId.canonicalId; rw [ht]
      apply String.ext; simp [String.data_append]
    refine ⟨?_, ?_, ?_, ?_, ?_, ?_, ?_, ?_, hn⟩ <;> try (rw [hS]; simp; done)
    · rw [hc]
      exact ⟨(t ++ "/").data, by simp [String.data_append]⟩
    · intro _; exact hc
  · have e := eq_of_split_four id _ _ _ _ hS
    have hc : r.canonicalId = id := by
      rw [e]; unfold LoggingSinkId.canonicalId
      apply String.ext; simp [String.data_append]
    refine ⟨?_, ?_, ?_, ?_, ?_, ?_, ?_, ?_, hn⟩ <;> try (rw [hS]; simp; done)
    · exact ⟨[], by simp [hc]⟩
    · intro _; exact hc

/-- Instance of C20 at the three-piece id `other-project/sinks/my-sink`. -/
theorem parse_ok_id_suffix_of_canonicalId_witness :
    parseLoggingSinkId "other-project/sinks/my-sink" "my-project" "projects"
      = .ok ⟨"projects", "other-project", "my-sink"⟩ ∧
    (strings.Split "other-project/sinks/my-sink").length = 3 ∧
    LoggingSinkId.canonicalId ⟨"projects", "other-project", "my-sink"⟩
      = "projects" ++ "/" ++ "other-project/sinks/my-sink" :=
  ⟨by decide, by decide,
    (parse_ok_id_suffix_of_canonicalId "other-project/sinks/my-sink" "my-project" "projects"
      ⟨"projects", "other-project", "my-sink"⟩ (by decide)).2.2.2.1 (by decide)⟩

/-! ## Label checks on a struct with a `Labels` map -/

theorem reflect_labels_ok (fields : List (String × GoValue)) (m : List (String × String))
    (hL : mapGet fields "Labels" = some (.mapStringString m)) :
    ReflectMapStringStringFromStruct (.struct fields) "Labels" = .ok m := by
  have hx : isExported "Labels" = true := by decide
  simp [ReflectMapStringStringFromStruct, GoValue.Kind, GoValue.FieldByName, hL, hx]

/-- C21: for a struct value whose `Labels` field is a `map[string]string`, and
every key `k` and value `v`, `CheckStructHasLabel` returns the nil error exactly
when the map holds `k` with value `v`; it returns the key-not-found error when
`k` is absent and the value-mismatch error, a different one, when `k` is present
with another value. -/
theorem check_label_ok_iff (fields : List (String × GoValue)) (m : List (String × String))
    (k v : String) (hL : mapGet fields "Labels" = some (.mapStringString m)) :
    (CheckStructHasLabel (.struct fields) k v = .ok () ↔ mapGet m k = some v) ∧
    (mapGet m k = none →
      CheckStructHasLabel (.struct fields) k v = .error (.keyNotFound k v m)) ∧
    (∀ w, mapGet m k = some w → w ≠ v →
      CheckStructHasLabel (.struct fields) k v = .error (.valueMismatch k v w)) ∧
    (∀ w, LabelError.keyNotFound k v m ≠ LabelError.valueMismatch k v w) := by
  have hr := reflect_labels_ok fields m hL
  refine ⟨?_, ?_, ?_, ?_⟩
  · unfold CheckStructHasLabel
    rw [hr]
    cases hg : mapGet m k with
    | none => simp [hg]
    | some w =>
      by_cases hw : w = v
      · simp [hg, hw]
      · simp [hg, hw]
  · intro hg
    unfold CheckStructHasLabel
    rw [hr]
    simp [hg]
  · intro w hg hw
    unfold CheckStructHasLabel
    rw [hr]
    simp [hg, hw]
  · intro w h
    exact LabelError.noConfusion h

/-- Instance of C21 at the struct whose `Labels` map holds `foobar` with value
`bazz`, checked for key `foobar` and value `bazz`. -/
theorem check_label_ok_iff_witness :
    CheckStructHasLabel (.struct [("Labels", .mapStringString [("foobar", "bazz")])])
      "foobar" "bazz" = .ok () ∧
    CheckStructHasLabel (.struct [("Labels", .mapStringString [("foobar", "bazz")])])
      "other" "bazz" = .error (.keyNotFound "other" "bazz" [("foobar", "bazz")]) :=
  ⟨(check_label_ok_iff [("Labels", .mapStringString [("foobar", "bazz")])]
      [("foobar", "bazz")] "foobar" "bazz" rfl).1.mpr (by decide),
    (check_label_ok_iff [("Labels", .mapStringString [("foobar", "bazz")])]
      [("foobar", "bazz")] "other" "bazz" rfl).2.1 (by decide)⟩

end Google
